import Mathlib

/-!
Shallow embedding of the `fly-action` CI plugin core: the OIDC token
exchange (`src/oidc.ts`), the post-phase end-of-job reporter
(`src/post.ts` and its step-introspection variant), and the two
job-status resolution strategies.  External effects (base64/JSON
decoding, HTTP responses, the filesystem, environment variables) are
passed in as explicit parameters, so every definition is an executable
Lean function mirroring the TypeScript control flow.
-/

deriving instance DecidableEq for Except

namespace FlyAction

/-! ## String helpers

JavaScript string primitives (`split`, `includes`, `startsWith`,
`toLowerCase`, `substring(lastIndexOf(c)+1)`) are modelled on `List Char`
so that everything reduces by `decide`/`rfl`. -/

/-- Does the first list start with the second?  Models JS `String.startsWith`
at the character-list level. -/
def startsWithL : List Char → List Char → Bool
  | _, [] => true
  | [], _ :: _ => false
  | a :: as, b :: bs => a == b && startsWithL as bs

/-- Does `l` contain `sub` as a contiguous run?  Models JS `String.includes`. -/
def containsL (l sub : List Char) : Bool :=
  match l with
  | [] => startsWithL [] sub
  | _ :: t => startsWithL l sub || containsL t sub

/-- String-level containment test. -/
def strContains (s sub : String) : Bool :=
  containsL s.data sub.data

/-- `m` embeds the string `x` somewhere inside it. -/
def embeds (m x : String) : Prop :=
  strContains m x = true

/-- Splits a character list at every occurrence of `c`; models JS
`String.split` with a one-character separator (`"".split(c)` is `[""]`). -/
def splitOnChar (c : Char) : List Char → List (List Char)
  | [] => [[]]
  | a :: t =>
    match splitOnChar c t with
    | [] => if a == c then [[], []] else [[a]]
    | h :: r => if a == c then [] :: h :: r else (a :: h) :: r

/-- `token.split(".")` from the JWT parsing code. -/
def jsSplitDot (s : String) : List String :=
  (splitOnChar '.' s.data).map String.mk

/-- ASCII lower-casing of one character, as JS `toLowerCase` acts on the
ASCII range (the only range exercised by this code's step names). -/
def lowerChar (c : Char) : Char :=
  if 65 ≤ c.toNat ∧ c.toNat ≤ 90 then Char.ofNat (c.toNat + 32) else c

/-- `s.toLowerCase()` restricted to ASCII. -/
def jsToLower (s : String) : String :=
  ⟨s.data.map lowerChar⟩

/-- JS `sub.substring(sub.lastIndexOf("/") + 1)`: everything after the last
slash (the whole string when no slash occurs, but the code only calls it
after an `includes("/")` check). -/
def afterLastSlash (s : String) : String :=
  ⟨(s.data.reverse.takeWhile (fun c => !(c == '/'))).reverse⟩

/-- JS truthiness of an optional string: `undefined` and `""` are falsy. -/
def optFalsy (o : Option String) : Bool :=
  match o with
  | none => true
  | some s => s == ""

/-- JS `a || b` where `a` is a string (`core.getInput` result, `""` when
unset) and `b` an optional environment variable. -/
def jsOrElse (input : String) (env : Option String) : Option String :=
  if input = "" then env else some input

/-! ## OIDC authentication (`src/oidc.ts`)

`extractUserFromToken` splits the JWT on `"."`, base64-decodes and
JSON-parses the middle segment, and reads its `sub` claim.  The
decode+parse step (`JSON.parse(Buffer.from(parts[1], "base64").toString())`)
is an external-library call, modelled as an oracle
`dp : String → Except Unit JwtPayload` mapping the middle segment to the
decoded payload (`.error` when `JSON.parse` throws; a payload whose `sub`
is `none` when the parsed value has no string `sub` field). -/

/-- The decoded JWT claims, restricted to the one field the code reads. -/
structure JwtPayload where
  sub : Option String
deriving DecidableEq

/-- `extractUserFromToken` from `src/oidc.ts` (both revisions are
identical).  Returns the extracted user (or `none`) together with the
list of `core.warning` messages emitted.  The TypeScript body is a
`try`/`catch`: a segment count other than 3 or a decode/parse failure is
caught and warned about; a missing or empty (falsy) `sub` claim falls
off the end of the `try` block, returning `undefined` with no warning. -/
def extractUserFromToken (dp : String → Except Unit JwtPayload)
    (token : String) : Option String × List String :=
  if (jsSplitDot token).length ≠ 3 then
    (none, ["Failed to parse user from OIDC token"])
  else
    match dp ((jsSplitDot token).getD 1 "") with
    | .error _ => (none, ["Failed to parse user from OIDC token"])
    | .ok payload =>
      match payload.sub with
      | some sub =>
        if sub = "" then (none, [])
        else (some (if sub.data.any (fun c => c == '/') then afterLastSlash sub
                    else sub), [])
      | none => (none, [])

/-- The front half of `authenticateOidc` (`src/oidc.ts`): obtain the ID
token (already fetched, passed as `idToken`; `undefined` or `""` is
falsy and aborts) and extract the user, aborting when the extracted user
is absent or empty. -/
def authenticateOidcUser (idToken : Option String)
    (dp : String → Except Unit JwtPayload) : Except String String :=
  match idToken with
  | none => .error "Failed to obtain OIDC token"
  | some t =>
    if t = "" then .error "Failed to obtain OIDC token"
    else
      match (extractUserFromToken dp t).1 with
      | none => .error "Failed to extract user from OIDC token"
      | some u =>
        if u = "" then .error "Failed to extract user from OIDC token"
        else .ok u

/-- Outcome of `JSON.parse` on the token-exchange response body, as the
code consumes it: `parseError` when `JSON.parse` throws (or yields
`null`, which the code's `catch` also converts to `{}`), otherwise the
`access_token` field of the parsed object (`none` when absent). -/
inductive BodyParse where
  | parseError : BodyParse
  | parsed : Option String → BodyParse
deriving DecidableEq

/-- The `access_token` the code sees after its parse-with-catch block. -/
def bodyToken : BodyParse → Option String
  | .parseError => none
  | .parsed t => t

/-- The response-handling tail of `authenticateOidc`
(`src/oidc.ts`, second revision, lines 187–234): given the HTTP status
code, the raw response body, and the parse outcome, either return the
access token or throw.  A non-200 status throws
`Token exchange failed {status}: {body}`; a 200 status whose parsed body
lacks a truthy `access_token` throws
`Token response did not contain an access token, body: {body}`. -/
def exchangeResult (statusCode : Nat) (body : String) (bp : BodyParse) :
    Except String String :=
  if statusCode = 200 then
    match bodyToken bp with
    | some t =>
      if t = "" then
        .error ("Token response did not contain an access token, body: " ++ body)
      else .ok t
    | none =>
      .error ("Token response did not contain an access token, body: " ++ body)
  else .error ("Token exchange failed " ++ toString statusCode ++ ": " ++ body)

/-- The service-account subject prefix named by the repository's own
tests (`jfrt@…`); the spec's extraction rule refers to it. -/
def serviceAccountPrefix : String := "jfrt@"

/-- A constant decode oracle, used to instantiate concrete test cases. -/
def dpConst (p : Except Unit JwtPayload) : String → Except Unit JwtPayload :=
  fun _ => p

/-! ## Strategy A: remote step introspection (`unnamed/part_006`)

`determineJobStatus` reads four environment values, queries the GitHub
API for the run's jobs, finds the current job, and inspects its steps.
The two Octokit calls are modelled as a single oracle
`api : Except String (List GitHubJob)` (`.error` = any API exception). -/

/-- One step of a GitHub job (`interface GitHubStep`): an optional name
and an optional conclusion (`null` and missing collapse to `none`). -/
structure GitHubStep where
  name : Option String
  conclusion : Option String
deriving DecidableEq

/-- One GitHub job (`interface GitHubJob`). -/
structure GitHubJob where
  name : String
  status : String
  conclusion : Option String
  steps : Option (List GitHubStep)
deriving DecidableEq

/-- The environment record built by `getGitHubEnvironment`.  `jobName`
stays optional: the code applies only a TypeScript `!` assertion to
`process.env.GITHUB_JOB`, which at runtime passes `undefined` through. -/
structure GitHubEnv where
  runId : String
  repository : String
  token : String
  jobName : Option String
deriving DecidableEq

/-- Does a step's name (lower-cased) start with `"post "`?  Mirrors
`step.name?.toLowerCase().startsWith("post ")`; a missing name makes the
optional chain `undefined`, which is falsy. -/
def isPostStep (step : GitHubStep) : Bool :=
  match step.name with
  | some n => startsWithL (n.data.map lowerChar) "post ".data
  | none => false

/-- `filterMainSteps` from `unnamed/part_006`: drop post-action steps. -/
def filterMainSteps (steps : List GitHubStep) : List GitHubStep :=
  steps.filter (fun s => !isPostStep s)

/-- `analyzeJobSteps` from `unnamed/part_006`: `"failure"` when any main
step concluded `failure` or `cancelled`, else `"success"`. -/
def analyzeJobSteps (steps : List GitHubStep) : String :=
  if (filterMainSteps steps).any
      (fun s => s.conclusion == some "failure" || s.conclusion == some "cancelled")
  then "failure" else "success"

/-- `getGitHubEnvironment` from `unnamed/part_006`.  `tokenInput` models
`core.getInput("token")` (empty string when unset); the other three model
`process.env.*` (absent = `none`).  A falsy run id, repository, or token
returns `null`; the job name is not checked. -/
def getGitHubEnvironment (runId repository : Option String)
    (tokenInput : String) (tokenEnv : Option String)
    (jobName : Option String) : Option GitHubEnv :=
  let token := jsOrElse tokenInput tokenEnv
  if optFalsy runId || optFalsy repository || optFalsy token then none
  else some { runId := runId.getD "", repository := repository.getD "",
              token := token.getD "", jobName := jobName }

/-- `jobs.jobs.find(job => job.name === env.jobName)`: strict equality
against an `undefined` job name matches nothing. -/
def findJob (jobs : List GitHubJob) (jobName : Option String) :
    Option GitHubJob :=
  match jobName with
  | some n => jobs.find? (fun j => j.name == n)
  | none => none

/-- The top-level-conclusion fallback inside `determineJobStatus`
(lines 131–139 of `unnamed/part_006`). -/
def topLevelFallback (job : GitHubJob) : String :=
  if job.conclusion == some "failure" || job.conclusion == some "cancelled"
      || job.conclusion == some "timed_out"
  then "failure" else "success"

/-- Verdict for a job the resolver found: analyze its steps when the step
list is present and non-empty, otherwise fall back to the job's own
conclusion, otherwise assume success. -/
def jobStatusForFoundJob (job : GitHubJob) : String :=
  match job.steps with
  | some steps =>
    if steps.length > 0 then analyzeJobSteps steps else topLevelFallback job
  | none => topLevelFallback job

/-- Strategy A `determineJobStatus` (`unnamed/part_006`): the resolved
status paired with whether the GitHub API was queried.  Every caught
exception path resolves to `"success"`. -/
def determineJobStatusA (runId repository : Option String)
    (tokenInput : String) (tokenEnv : Option String)
    (jobName : Option String) (api : Except String (List GitHubJob)) :
    String × Bool :=
  match getGitHubEnvironment runId repository tokenInput tokenEnv jobName with
  | none => ("success", false)
  | some env =>
    match api with
    | .error _ => ("success", true)
    | .ok jobs =>
      match findJob jobs env.jobName with
      | some job => (jobStatusForFoundJob job, true)
      | none => ("success", true)

/-! ## Strategy B: sentinel file, and the end-of-job reporter
(`src/post.ts`) -/

/-- `path.join(workspacePath, ".fly-job-status")` where `workspacePath`
is `process.env.GITHUB_WORKSPACE || process.cwd()`. -/
def statusFilePath (workspaceEnv : Option String) (cwd : String) : String :=
  (match workspaceEnv with
   | some w => if w = "" then cwd else w
   | none => cwd) ++ "/.fly-job-status"

/-- Strategy B `determineJobStatus` (`src/post.ts`): the filesystem
existence check is the oracle `fs` (`.error` = `fs.existsSync` or the
surrounding code throwing, caught by the `try`/`catch`). -/
def determineJobStatusB (workspaceEnv : Option String) (cwd : String)
    (fs : String → Except Unit Bool) : String :=
  match fs (statusFilePath workspaceEnv cwd) with
  | .ok true => "success"
  | .ok false => "failure"
  | .error _ => "failure"

/-- The end-of-job notification payload (`EndCiRequest`): the
`package_managers` key is either present (`some`) or omitted (`none`). -/
structure EndCiRequest where
  status : String
  package_managers : Option (List String)
deriving DecidableEq

/-- Observable outcome of one `runPost` invocation. -/
structure PostOutcome where
  /-- Was the CI-end HTTP POST issued? -/
  madeHttpCall : Bool
  /-- Was `determineJobStatus()` reached (it runs only after the
  short-circuit checks)? -/
  statusComputed : Bool
  /-- The payload sent, when a POST was issued. -/
  payload : Option EndCiRequest
  /-- `core.warning` messages emitted. -/
  warnings : List String
  /-- Normal return, or the error thrown out of `runPost`. -/
  result : Except String Unit
  /-- Was `createJobSummary` invoked? -/
  summaryCreated : Bool
deriving DecidableEq

/-- The package-manager deserialization block of `runPost` (lines 58–68
of `src/post.ts`): the resulting `packageManagers` list paired with the
warnings emitted.  `pmParse` is the outcome of `JSON.parse(pmState)`,
consulted only when the cached state is truthy. -/
def pmParseResult (pmState : String)
    (pmParse : Except String (List String)) : List String × List String :=
  if pmState = "" then ([], [])
  else
    match pmParse with
    | .ok l => (l, [])
    | .error e =>
      ([], ["Failed to parse package managers from state: " ++ pmState
            ++ ". Error: " ++ e])

/-- Payload construction in `runPost`: `status` always, `package_managers`
only when the list is non-empty. -/
def buildPayload (determinedStatus : String) (pm : List String) :
    EndCiRequest :=
  { status := determinedStatus,
    package_managers := if pm.length > 0 then some pm else none }

/-- The HTTP tail of `runPost` (lines 89–128 of `src/post.ts`): POST the
payload; 200 succeeds (rendering the job summary only for a `success`
status), any other status throws an error embedding status and body,
and a network exception is rethrown unchanged. -/
def postSend (payload : EndCiRequest) (warnings : List String)
    (determinedStatus : String) (httpResp : Except String (Nat × String)) :
    PostOutcome :=
  match httpResp with
  | .error e => ⟨true, true, some payload, warnings, .error e, false⟩
  | .ok (code, body) =>
    if code = 200 then
      ⟨true, true, some payload, warnings, .ok (),
        determinedStatus == "success"⟩
    else
      ⟨true, true, some payload, warnings,
        .error ("Failed to send CI end notification. Status: "
          ++ toString code ++ ". Body: " ++ body), false⟩

/-- `runPost` from `src/post.ts` (the `part_006` revision is identical
except that its `determinedStatus` comes from Strategy A instead of
Strategy B; the status is therefore a parameter here).  `flyUrl`,
`accessToken`, `pmState` are the three `core.getState` reads (missing
state reads back as `""`); an empty registry URL or access token
short-circuits to a silent no-op before any status resolution or HTTP
activity. -/
def runPost (flyUrl accessToken pmState : String)
    (pmParse : Except String (List String)) (determinedStatus : String)
    (httpResp : Except String (Nat × String)) : PostOutcome :=
  if flyUrl = "" then ⟨false, false, none, [], .ok (), false⟩
  else if accessToken = "" then ⟨false, false, none, [], .ok (), false⟩
  else
    let pmPair := pmParseResult pmState pmParse
    postSend (buildPayload determinedStatus pmPair.1) pmPair.2
      determinedStatus httpResp

/-! ## Helper lemmas -/

theorem startsWithL_append_self (x r : List Char) :
    startsWithL (x ++ r) x = true := by
  induction x with
  | nil => cases r <;> rfl
  | cons a as ih => simp [startsWithL, ih]

theorem containsL_nil_right (l : List Char) : containsL l [] = true := by
  cases l with
  | nil => rfl
  | cons a t => simp [containsL, startsWithL]

theorem containsL_of_suffix (p t sub : List Char)
    (h : containsL t sub = true) : containsL (p ++ t) sub = true := by
  induction p with
  | nil => simpa using h
  | cons a as ih => simp [containsL, ih]

theorem containsL_append_self (x q : List Char) :
    containsL (x ++ q) x = true := by
  cases x with
  | nil => simpa using containsL_nil_right q
  | cons a t =>
    have h := startsWithL_append_self (a :: t) q
    simp only [containsL, List.cons_append] at h ⊢
    simp [h]

theorem string_data_append (s t : String) :
    (s ++ t).data = s.data ++ t.data := by
  cases s; cases t; rfl

/-- A string whose character data decomposes as `p ++ x.data ++ q`
embeds `x`. -/
theorem embeds_of_data (m x : String) (p q : List Char)
    (h : m.data = p ++ x.data ++ q) : embeds m x := by
  unfold embeds strContains
  rw [h, List.append_assoc]
  exact containsL_of_suffix _ _ _ (containsL_append_self _ _)

/-- Any string literally assembled as `p ++ x ++ q` embeds `x`. -/
theorem embeds_intro (p x q : String) : embeds (p ++ x ++ q) x :=
  embeds_of_data _ _ p.data q.data
    (by rw [string_data_append, string_data_append])

/-- Variant of `embeds_intro` with no suffix. -/
theorem embeds_intro_right (p x : String) : embeds (p ++ x) x :=
  embeds_of_data _ _ p.data []
    (by rw [string_data_append]; simp)

theorem postSend_payload (p : EndCiRequest) (w : List String) (st : String)
    (r : Except String (Nat × String)) : (postSend p w st r).payload = some p := by
  rcases r with e | ⟨code, body⟩
  · rfl
  · by_cases h : code = 200 <;> simp [postSend, h]

theorem postSend_warnings (p : EndCiRequest) (w : List String) (st : String)
    (r : Except String (Nat × String)) : (postSend p w st r).warnings = w := by
  rcases r with e | ⟨code, body⟩
  · rfl
  · by_cases h : code = 200 <;> simp [postSend, h]

theorem postSend_madeHttpCall (p : EndCiRequest) (w : List String) (st : String)
    (r : Except String (Nat × String)) : (postSend p w st r).madeHttpCall = true := by
  rcases r with e | ⟨code, body⟩
  · rfl
  · by_cases h : code = 200 <;> simp [postSend, h]

theorem buildPayload_nonempty (st : String) (pm l : List String)
    (h : (buildPayload st pm).package_managers = some l) : l ≠ [] := by
  unfold buildPayload at h
  by_cases hl : pm.length > 0
  · simp [hl] at h
    subst h
    intro hnil
    simp [hnil] at hl
  · simp [hl] at h

/-! ## Claim theorems -/

/-- C1 (counterexample): the claim asserts that every failing token
exchange throws an error whose message embeds the literal numeric status
code.  With HTTP status 200 and an unparseable body, `authenticateOidc`
throws `Token response did not contain an access token, body: notjson`,
whose message does not contain the status code `200` at all. -/
theorem exchange_error_status_counterexample :
    exchangeResult 200 "notjson" BodyParse.parseError =
      Except.error "Token response did not contain an access token, body: notjson" ∧
    strContains "Token response did not contain an access token, body: notjson"
      "200" = false := by
  decide

/-- C1 (amended): the token exchange returns an access credential iff the
status is 200 and the parsed body carries a non-empty `access_token`.
On a non-success status the error message embeds the literal status code
and the raw body; on a success status with an unparseable body or a
missing/empty `access_token`, the error message embeds the raw body but
not the status code. -/
theorem exchangeResult_spec (s : Nat) (body : String) (bp : BodyParse) :
    ((∃ t, exchangeResult s body bp = .ok t) ↔
      s = 200 ∧ ∃ t, bodyToken bp = some t ∧ t ≠ "") ∧
    (s ≠ 200 →
      exchangeResult s body bp =
        .error ("Token exchange failed " ++ toString s ++ ": " ++ body) ∧
      embeds ("Token exchange failed " ++ toString s ++ ": " ++ body)
        (toString s) ∧
      embeds ("Token exchange failed " ++ toString s ++ ": " ++ body) body) ∧
    (s = 200 → bodyToken bp = none ∨ bodyToken bp = some "" →
      exchangeResult s body bp =
        .error ("Token response did not contain an access token, body: " ++ body) ∧
      embeds ("Token response did not contain an access token, body: " ++ body)
        body) := by
  refine ⟨?_, ?_, ?_⟩
  · unfold exchangeResult
    by_cases hs : s = 200
    · subst hs
      simp only [if_pos rfl]
      cases h : bodyToken bp with
      | none => simp
      | some t => by_cases ht : t = "" <;> simp [ht]
    · simp [hs]
  · intro hs
    unfold exchangeResult
    refine ⟨by simp [hs], ?_, ?_⟩
    · exact embeds_of_data _ _ "Token exchange failed ".data
        (": ".data ++ body.data)
        (by simp [string_data_append])
    · exact embeds_of_data _ _
        ("Token exchange failed ".data ++ (toString s).data ++ ": ".data) []
        (by simp [string_data_append])
  · intro hs hb
    subst hs
    unfold exchangeResult
    refine ⟨?_, ?_⟩
    · rcases hb with h | h <;> simp [h]
    · exact embeds_of_data _ _
        "Token response did not contain an access token, body: ".data []
        (by simp [string_data_append])

/-- C1 (witness): instantiating the amended theorem at status 500 and
body `oops`. -/
theorem exchangeResult_spec_witness :
    exchangeResult 500 "oops" (BodyParse.parsed none) =
      .error ("Token exchange failed " ++ toString 500 ++ ": " ++ "oops") ∧
    embeds ("Token exchange failed " ++ toString 500 ++ ": " ++ "oops")
      (toString 500) :=
  ⟨((exchangeResult_spec 500 "oops" (.parsed none)).2.1 (by decide)).1,
   ((exchangeResult_spec 500 "oops" (.parsed none)).2.1 (by decide)).2.1⟩

/-- C2: `filterMainSteps` drops exactly the steps whose name lower-cases
to something starting with `"post "`; `analyzeJobSteps` resolves to
`"failure"` iff some remaining main step concluded `failure` or
`cancelled`, and to `"success"` otherwise — in particular when the
filtered list is empty — and the three concrete examples from the spec
hold. -/
theorem analyzeJobSteps_spec (steps : List GitHubStep) :
    (analyzeJobSteps steps = "failure" ↔
      ∃ s ∈ filterMainSteps steps,
        s.conclusion = some "failure" ∨ s.conclusion = some "cancelled") ∧
    ((¬ ∃ s ∈ filterMainSteps steps,
        s.conclusion = some "failure" ∨ s.conclusion = some "cancelled") →
      analyzeJobSteps steps = "success") ∧
    (∀ s, s ∈ filterMainSteps steps ↔ s ∈ steps ∧ isPostStep s = false) ∧
    (filterMainSteps steps = [] → analyzeJobSteps steps = "success") ∧
    analyzeJobSteps
      [⟨some "Build", some "success"⟩, ⟨some "Post Cleanup", some "failure"⟩]
      = "success" ∧
    analyzeJobSteps [⟨some "Build", some "failure"⟩] = "failure" ∧
    analyzeJobSteps ([] : List GitHubStep) = "success" := by
  have hany : ((filterMainSteps steps).any
      (fun s => s.conclusion == some "failure"
        || s.conclusion == some "cancelled") = true) ↔
      ∃ s ∈ filterMainSteps steps,
        s.conclusion = some "failure" ∨ s.conclusion = some "cancelled" := by
    simp [List.any_eq_true]
  have hiff : analyzeJobSteps steps = "failure" ↔
      ∃ s ∈ filterMainSteps steps,
        s.conclusion = some "failure" ∨ s.conclusion = some "cancelled" := by
    unfold analyzeJobSteps
    split
    · next hcond => exact iff_of_true rfl (hany.mp hcond)
    · next hcond => exact iff_of_false (by decide) (fun hx => hcond (hany.mpr hx))
  refine ⟨hiff, ?_, ?_, ?_, by decide, by decide, by decide⟩
  · intro h
    unfold analyzeJobSteps
    split
    · next hcond => exact absurd (hany.mp hcond) h
    · rfl
  · intro s
    simp [filterMainSteps, List.mem_filter]
  · intro h
    unfold analyzeJobSteps
    rw [h]
    rfl

/-- C2 (witness): a list whose only step is post-prefixed filters to `[]`
and resolves to `success`. -/
theorem analyzeJobSteps_spec_witness :
    filterMainSteps [⟨some "Post Run fly", some "failure"⟩] = [] ∧
    analyzeJobSteps [⟨some "Post Run fly", some "failure"⟩] = "success" :=
  ⟨by decide,
   (analyzeJobSteps_spec [⟨some "Post Run fly", some "failure"⟩]).2.2.2.1
     (by decide)⟩

/-- C3 (counterexample): the claim asserts that a matching job reporting
no step list resolves to failure.  The resolver finds the job `build`,
which has `steps` absent and a top-level conclusion of `success`, yet
resolves to `"success"`, not `"failure"`: with no step list, failure is
reported only for a `failure`/`cancelled`/`timed_out` conclusion. -/
theorem noStepList_counterexample :
    findJob [⟨"build", "completed", some "success", none⟩] (some "build") =
      some ⟨"build", "completed", some "success", none⟩ ∧
    (⟨"build", "completed", some "success", none⟩ : GitHubJob).steps = none ∧
    determineJobStatusA (some "1") (some "o/r") "tok" none (some "build")
      (.ok [⟨"build", "completed", some "success", none⟩]) = ("success", true) := by
  decide

/-- C3 (amended): a matching job with no step list resolves to `failure`
iff its own top-level conclusion is `failure`, `cancelled`, or
`timed_out`; with any other conclusion it resolves to `success`. -/
theorem determineJobStatusA_noSteps (runId repository : Option String)
    (tokenInput : String) (tokenEnv jobName : Option String)
    (jobs : List GitHubJob) (env : GitHubEnv) (job : GitHubJob)
    (hEnv : getGitHubEnvironment runId repository tokenInput tokenEnv jobName
      = some env)
    (hFind : findJob jobs env.jobName = some job)
    (hSteps : job.steps = none) :
    (determineJobStatusA runId repository tokenInput tokenEnv jobName
      (.ok jobs)).1 = topLevelFallback job ∧
    ((determineJobStatusA runId repository tokenInput tokenEnv jobName
        (.ok jobs)).1 = "failure" ↔
      job.conclusion = some "failure" ∨ job.conclusion = some "cancelled"
        ∨ job.conclusion = some "timed_out") := by
  have h1 : (determineJobStatusA runId repository tokenInput tokenEnv jobName
      (.ok jobs)).1 = topLevelFallback job := by
    simp [determineJobStatusA, hEnv, hFind, jobStatusForFoundJob, hSteps]
  refine ⟨h1, ?_⟩
  rw [h1]
  unfold topLevelFallback
  split
  · next hcond =>
    exact iff_of_true rfl (by simpa [or_assoc] using hcond)
  · next hcond =>
    exact iff_of_false (by decide)
      (fun hx => hcond (by simpa [or_assoc] using hx))

/-- C3 (witness): a found job with no step list and conclusion
`cancelled` resolves to failure. -/
theorem determineJobStatusA_noSteps_witness :
    (determineJobStatusA (some "1") (some "o/r") "tok" none (some "build")
      (.ok [⟨"build", "completed", some "cancelled", none⟩])).1 = "failure" :=
  (determineJobStatusA_noSteps (some "1") (some "o/r") "tok" none
    (some "build") [⟨"build", "completed", some "cancelled", none⟩]
    ⟨"1", "o/r", "tok", some "build"⟩
    ⟨"build", "completed", some "cancelled", none⟩
    (by decide) (by decide) rfl).2.mpr (Or.inr (Or.inl rfl))

/-- C4 (counterexample): the claim asserts that a missing job name (one
of the four required identifiers) short-circuits the resolver without
any network call.  With run id, repository and token present but
`GITHUB_JOB` absent, `getGitHubEnvironment` does not return `null` — it
only checks the other three — so the GitHub API is still queried
(second component `true`). -/
theorem missingJobName_counterexample :
    determineJobStatusA (some "123") (some "owner/repo") "tok" none none
      (.ok []) = ("success", true) ∧
    optFalsy (none : Option String) = true := by
  decide

/-- C4 (amended): a missing or empty run id, repository, or API token
short-circuits the resolver to `success` without querying the API, but a
missing job name does not short-circuit: the API query is still made,
no job matches an `undefined` name, and the result is `success`. -/
theorem determineJobStatusA_shortCircuit (runId repository : Option String)
    (tokenInput : String) (tokenEnv jobName : Option String)
    (api : Except String (List GitHubJob)) :
    ((optFalsy runId = true ∨ optFalsy repository = true ∨
        optFalsy (jsOrElse tokenInput tokenEnv) = true) →
      determineJobStatusA runId repository tokenInput tokenEnv jobName api
        = ("success", false)) ∧
    (optFalsy runId = false → optFalsy repository = false →
      optFalsy (jsOrElse tokenInput tokenEnv) = false → jobName = none →
      ∀ jobs, determineJobStatusA runId repository tokenInput tokenEnv
        jobName (.ok jobs) = ("success", true)) := by
  constructor
  · intro h
    rcases h with h | h | h <;>
      simp [determineJobStatusA, getGitHubEnvironment, h]
  · intro h1 h2 h3 hj jobs
    subst hj
    simp [determineJobStatusA, getGitHubEnvironment, h1, h2, h3, findJob]

/-- C4 (witness): a missing run id short-circuits without a network
call. -/
theorem determineJobStatusA_shortCircuit_witness :
    determineJobStatusA none (some "o/r") "tok" none (some "build")
      (.ok []) = ("success", false) :=
  (determineJobStatusA_shortCircuit none (some "o/r") "tok" none
    (some "build") (.ok [])).1 (Or.inl (by decide))

/-- C5 (counterexample): the claim asserts that a `sub` claim containing
neither the segment `/users/` nor a service-account prefix is returned
verbatim.  The decoded `sub` `a/b` contains no `/users/` and does not
start with the service-account prefix `jfrt@`, yet `extractUserFromToken`
returns `b`, not `a/b`: any slash at all triggers the after-last-slash
extraction. -/
theorem parseSubject_verbatim_counterexample :
    (extractUserFromToken (dpConst (.ok ⟨some "a/b"⟩)) "h.x.s").1 = some "b" ∧
    strContains "a/b" "/users/" = false ∧
    startsWithL "a/b".data serviceAccountPrefix.data = false ∧
    some "b" ≠ some "a/b" := by
  decide

/-- C5 (amended): for a well-formed three-segment assertion whose decoded
`sub` claim is non-empty, the extracted user is the substring after the
last `/` when `sub` contains any slash, and `sub` verbatim exactly when
`sub` contains no slash at all. -/
theorem extractUserFromToken_wellFormed (dp : String → Except Unit JwtPayload)
    (token sub : String)
    (h3 : (jsSplitDot token).length = 3)
    (hdp : dp ((jsSplitDot token).getD 1 "") = .ok ⟨some sub⟩)
    (hne : sub ≠ "") :
    (extractUserFromToken dp token).1 =
      some (if sub.data.any (fun c => c == '/') then afterLastSlash sub
            else sub) ∧
    (sub.data.any (fun c => c == '/') = false →
      (extractUserFromToken dp token).1 = some sub) := by
  have h1 : (extractUserFromToken dp token).1 =
      some (if sub.data.any (fun c => c == '/') then afterLastSlash sub
            else sub) := by
    unfold extractUserFromToken
    rw [if_neg (by simp [h3] : ¬(jsSplitDot token).length ≠ 3), hdp]
    simp [hne]
  refine ⟨h1, fun h => ?_⟩
  rw [h1, h]
  simp

/-- C5 (witness): `org/repo/username` extracts to `username`. -/
theorem extractUserFromToken_wellFormed_witness :
    (extractUserFromToken (dpConst (.ok ⟨some "org/repo/username"⟩))
      "h.x.s").1 = some "username" :=
  ((extractUserFromToken_wellFormed (dpConst (.ok ⟨some "org/repo/username"⟩))
    "h.x.s" "org/repo/username" (by decide) (by decide) (by decide)).1).trans
    (by decide)

/-- C6: when the stored registry URL or the stored access credential is
empty, `runPost` short-circuits to a no-op: no HTTP call, no status
resolution, no payload, no warnings, a normal return, and no job
summary. -/
theorem runPost_shortCircuit (flyUrl accessToken pmState : String)
    (pmParse : Except String (List String)) (determinedStatus : String)
    (httpResp : Except String (Nat × String))
    (h : flyUrl = "" ∨ accessToken = "") :
    runPost flyUrl accessToken pmState pmParse determinedStatus httpResp =
      ⟨false, false, none, [], .ok (), false⟩ := by
  rcases h with h | h
  · simp [runPost, h]
  · by_cases hu : flyUrl = "" <;> simp [runPost, hu, h]

/-- C6 (witness): an empty registry URL with everything else present is a
silent no-op. -/
theorem runPost_shortCircuit_witness :
    runPost "" "tok" "[\x22npm\x22]" (.ok ["npm"]) "success" (.ok (500, "boom")) =
      ⟨false, false, none, [], .ok (), false⟩ :=
  runPost_shortCircuit "" "tok" "[\x22npm\x22]" (.ok ["npm"]) "success"
    (.ok (500, "boom")) (Or.inl rfl)

/-- C7: a `runPost` payload carries `package_managers` only when the
deserialized list is non-empty; an absent/empty cached state or a list
that parses to `[]` yields a status-only payload; a parse failure yields
a status-only payload, a warning embedding the offending raw state
string, and the notification is still sent. -/
theorem runPost_packageManagers (flyUrl accessToken pmState : String)
    (pmParse : Except String (List String)) (determinedStatus : String)
    (httpResp : Except String (Nat × String))
    (hu : flyUrl ≠ "") (ht : accessToken ≠ "") :
    (∀ p l, (runPost flyUrl accessToken pmState pmParse determinedStatus
        httpResp).payload = some p → p.package_managers = some l → l ≠ []) ∧
    (pmState = "" →
      (runPost flyUrl accessToken pmState pmParse determinedStatus
        httpResp).payload = some ⟨determinedStatus, none⟩ ∧
      (runPost flyUrl accessToken pmState pmParse determinedStatus
        httpResp).warnings = []) ∧
    (pmParse = .ok [] →
      (runPost flyUrl accessToken pmState pmParse determinedStatus
        httpResp).payload = some ⟨determinedStatus, none⟩) ∧
    (∀ e, pmParse = .error e → pmState ≠ "" →
      (runPost flyUrl accessToken pmState pmParse determinedStatus
        httpResp).payload = some ⟨determinedStatus, none⟩ ∧
      (runPost flyUrl accessToken pmState pmParse determinedStatus
        httpResp).warnings =
        ["Failed to parse package managers from state: " ++ pmState
          ++ ". Error: " ++ e] ∧
      embeds ("Failed to parse package managers from state: " ++ pmState
          ++ ". Error: " ++ e) pmState ∧
      (runPost flyUrl accessToken pmState pmParse determinedStatus
        httpResp).madeHttpCall = true) := by
  have hrun : runPost flyUrl accessToken pmState pmParse determinedStatus
      httpResp =
      postSend (buildPayload determinedStatus
          (pmParseResult pmState pmParse).1)
        (pmParseResult pmState pmParse).2 determinedStatus httpResp := by
    simp [runPost, hu, ht]
  refine ⟨?_, ?_, ?_, ?_⟩
  · intro p l hp hl
    rw [hrun, postSend_payload] at hp
    have := hp.symm
    injection this with h
    subst h
    exact buildPayload_nonempty _ _ _ hl
  · intro hs
    rw [hrun, postSend_payload, postSend_warnings]
    simp [pmParseResult, hs, buildPayload]
  · intro hp
    rw [hrun, postSend_payload]
    by_cases hs : pmState = "" <;> simp [pmParseResult, hs, hp, buildPayload]
  · intro e hp hs
    rw [hrun, postSend_payload, postSend_warnings, postSend_madeHttpCall]
    refine ⟨?_, ?_, ?_, rfl⟩
    · simp [pmParseResult, hs, hp, buildPayload]
    · simp [pmParseResult, hs, hp]
    · exact embeds_of_data _ _
        "Failed to parse package managers from state: ".data
        (". Error: ".data ++ e.data) (by simp [string_data_append])

/-- C7 (witness): malformed cached state `notjson` yields a status-only
payload, a warning embedding `notjson`, and the POST still goes out. -/
theorem runPost_packageManagers_witness :
    (runPost "u" "t" "notjson" (.error "E") "success"
      (.ok (200, ""))).payload = some ⟨"success", none⟩ ∧
    embeds ("Failed to parse package managers from state: " ++ "notjson"
      ++ ". Error: " ++ "E") "notjson" ∧
    (runPost "u" "t" "notjson" (.error "E") "success"
      (.ok (200, ""))).madeHttpCall = true := by
  have h := (runPost_packageManagers "u" "t" "notjson" (.error "E") "success"
    (.ok (200, "")) (by decide) (by decide)).2.2.2 "E" rfl (by decide)
  exact ⟨h.1, h.2.2.1, h.2.2.2⟩

/-- C8: Strategy B resolves to `success` when the marker file
`.fly-job-status` exists at the workspace root (the current working
directory when `GITHUB_WORKSPACE` is unset or empty), to `failure` when
it does not, and to `failure` — without throwing — when the filesystem
check itself errors. -/
theorem determineJobStatusB_spec (workspaceEnv : Option String)
    (cwd : String) (fs : String → Except Unit Bool) :
    (fs (statusFilePath workspaceEnv cwd) = .ok true →
      determineJobStatusB workspaceEnv cwd fs = "success") ∧
    (fs (statusFilePath workspaceEnv cwd) = .ok false →
      determineJobStatusB workspaceEnv cwd fs = "failure") ∧
    (∀ e, fs (statusFilePath workspaceEnv cwd) = .error e →
      determineJobStatusB workspaceEnv cwd fs = "failure") ∧
    (workspaceEnv = none ∨ workspaceEnv = some "" →
      statusFilePath workspaceEnv cwd = cwd ++ "/.fly-job-status") := by
  refine ⟨?_, ?_, ?_, ?_⟩
  · intro h
    unfold determineJobStatusB
    rw [h]
  · intro h
    unfold determineJobStatusB
    rw [h]
  · intro e h
    unfold determineJobStatusB
    rw [h]
  · intro h
    rcases h with h | h <;> simp [statusFilePath, h]

/-- C8 (witness): marker present at the cwd fallback path resolves to
`success`. -/
theorem determineJobStatusB_spec_witness :
    determineJobStatusB none "/work" (fun _ => .ok true) = "success" :=
  (determineJobStatusB_spec none "/work" (fun _ => .ok true)).1 rfl

/-- C9 (counterexample): the claim asserts that a missing `sub` field
also logs a descriptive warning.  For a three-segment token whose
payload decodes without a `sub` claim, `extractUserFromToken` returns
absent but emits no warning at all: the falsy-`sub` path falls off the
end of the `try` block without reaching the `catch`. -/
theorem missingSub_noWarning_counterexample :
    extractUserFromToken (dpConst (.ok ⟨none⟩)) "h.x.s" = (none, []) := by
  decide

/-- C9 (amended): a token without exactly 3 dot-separated segments, or
whose middle segment fails to decode/parse, returns absent with the
warning `Failed to parse user from OIDC token`; a well-formed token
whose payload lacks a `sub` claim (or carries an empty one) returns
absent with no warning.  The function is total, so it never throws. -/
theorem extractUserFromToken_malformed (dp : String → Except Unit JwtPayload)
    (token : String) :
    ((jsSplitDot token).length ≠ 3 →
      extractUserFromToken dp token =
        (none, ["Failed to parse user from OIDC token"])) ∧
    ((jsSplitDot token).length = 3 →
      dp ((jsSplitDot token).getD 1 "") = .error () →
      extractUserFromToken dp token =
        (none, ["Failed to parse user from OIDC token"])) ∧
    ((jsSplitDot token).length = 3 →
      dp ((jsSplitDot token).getD 1 "") = .ok ⟨none⟩ →
      extractUserFromToken dp token = (none, [])) ∧
    ((jsSplitDot token).length = 3 →
      dp ((jsSplitDot token).getD 1 "") = .ok ⟨some ""⟩ →
      extractUserFromToken dp token = (none, [])) := by
  refine ⟨?_, ?_, ?_, ?_⟩
  · intro h
    unfold extractUserFromToken
    rw [if_pos h]
  · intro h3 hdp
    unfold extractUserFromToken
    rw [if_neg (by simp [h3] : ¬(jsSplitDot token).length ≠ 3), hdp]
  · intro h3 hdp
    unfold extractUserFromToken
    rw [if_neg (by simp [h3] : ¬(jsSplitDot token).length ≠ 3), hdp]
  · intro h3 hdp
    unfold extractUserFromToken
    rw [if_neg (by simp [h3] : ¬(jsSplitDot token).length ≠ 3), hdp]
    simp

/-- C9 (witness): a two-segment token warns and returns absent even when
the decode oracle would succeed. -/
theorem extractUserFromToken_malformed_witness :
    extractUserFromToken (dpConst (.ok ⟨some "user"⟩)) "invalid.token" =
      (none, ["Failed to parse user from OIDC token"]) :=
  (extractUserFromToken_malformed (dpConst (.ok ⟨some "user"⟩))
    "invalid.token").1 (by decide)

/-- C10: a well-formed three-segment assertion whose non-empty decoded
`sub` ends in `/` makes `extractUserFromToken` return the empty string
(with no warning), which `authenticateOidc` treats as an absent
principal: authentication aborts with
`Failed to extract user from OIDC token` despite the `sub` claim being
present. -/
theorem trailingSlash_sub_rejected (dp : String → Except Unit JwtPayload)
    (token sub : String) (l : List Char)
    (h3 : (jsSplitDot token).length = 3)
    (hdp : dp ((jsSplitDot token).getD 1 "") = .ok ⟨some sub⟩)
    (hslash : sub.data = l ++ ['/']) :
    extractUserFromToken dp token = (some "", []) ∧
    authenticateOidcUser (some token) dp =
      .error "Failed to extract user from OIDC token" := by
  have hne : sub ≠ "" := by
    intro h
    subst h
    simp at hslash
  have hany : sub.data.any (fun c => c == '/') = true := by
    rw [hslash]
    simp
  have hafter : afterLastSlash sub = "" := by
    unfold afterLastSlash
    rw [hslash]
    simp
  have htok : token ≠ "" := by
    intro h
    subst h
    simp [jsSplitDot, splitOnChar] at h3
  have hext : extractUserFromToken dp token = (some "", []) := by
    unfold extractUserFromToken
    rw [if_neg (by simp [h3] : ¬(jsSplitDot token).length ≠ 3), hdp]
    simp only []
    rw [if_neg hne, if_pos (by simpa using hany), hafter]
  refine ⟨hext, ?_⟩
  simp [authenticateOidcUser, htok, hext]

/-- C10 (witness): `sub = "user/"` aborts authentication. -/
theorem trailingSlash_sub_rejected_witness :
    extractUserFromToken (dpConst (.ok ⟨some "user/"⟩)) "h.x.s" =
      (some "", []) ∧
    authenticateOidcUser (some "h.x.s") (dpConst (.ok ⟨some "user/"⟩)) =
      .error "Failed to extract user from OIDC token" :=
  trailingSlash_sub_rejected (dpConst (.ok ⟨some "user/"⟩)) "h.x.s" "user/"
    "user".data (by decide) (by decide) (by decide)

end FlyAction
